import Mathlib

/-!
Shallow embedding of the static-file HTTP server in serve.c
(GitHub-Portfolio-Page-Builder).

C strings are modelled as lists of byte values (Nat, each < 256 for real
inputs).  The str* library routines stop at the first NUL byte, so every
scanning operation first passes through the C-string view cstrV.  Raw
buffers (request body bytes handled by memcpy and fwrite) are plain byte
lists.  The filesystem is a record holding the two files the API handlers
persist.  Socket input after the initial recv is a list of segments, one
per recv call; an empty segment models recv returning 0 or an error.
-/

abbrev Bytes := List Nat

/-- Byte values of a string literal (ASCII code points). -/
def bytes (s : String) : Bytes := s.data.map Char.toNat

/-- View of a byte buffer as a C string: the bytes before the first NUL. -/
def cstrV (b : Bytes) : Bytes := b.takeWhile (fun c => c != 0)

/-- Whitespace test matching isspace in the C locale: space (32) or
the control bytes 9 through 13. -/
def isSpaceB (c : Nat) : Bool := decide (c = 32 ∨ (9 ≤ c ∧ c ≤ 13))

/-- Decimal digit test. -/
def isDigitB (c : Nat) : Bool := decide (48 ≤ c ∧ c ≤ 57)

/-- Hexadecimal digit test matching isxdigit. -/
def isHexB (c : Nat) : Bool :=
  decide ((48 ≤ c ∧ c ≤ 57) ∨ (97 ≤ c ∧ c ≤ 102) ∨ (65 ≤ c ∧ c ≤ 70))

/-- Value of a hexadecimal digit byte. -/
def hexV (c : Nat) : Nat :=
  if 48 ≤ c ∧ c ≤ 57 then c - 48
  else if 97 ≤ c then c - 87
  else c - 55

/-- Does needle occur at the head of hay (byte-wise strncmp == 0 test). -/
def beginsWith : Bytes → Bytes → Bool
  | [], _ => true
  | _ :: _, [] => false
  | a :: as, b :: bs => a == b && beginsWith as bs

/-- Index of the first occurrence of needle in hay (strstr on a
NUL-free haystack); the caller applies cstrV first. -/
def findSub : Bytes → Bytes → Option Nat
  | [], needle => if needle.isEmpty then some 0 else none
  | a :: t, needle =>
    if beginsWith needle (a :: t) then some 0
    else (findSub t needle).map (· + 1)

/-- strstr on a C string: index of the first occurrence of needle. -/
def strstrIdx (hay needle : Bytes) : Option Nat := findSub (cstrV hay) needle

/-- Does the C string hay contain needle. -/
def hasSub (hay needle : Bytes) : Bool := (strstrIdx hay needle).isSome

/-- Index of the first occurrence of byte c (strchr). -/
def findIdxP : Bytes → Nat → Option Nat
  | [], _ => none
  | a :: t, c => if a = c then some 0 else (findIdxP t c).map (· + 1)

/-- strchr on a C string. -/
def strchrIdx (s : Bytes) (c : Nat) : Option Nat := findIdxP (cstrV s) c

/-- Accumulating decimal parse: the digit run at the head of the list. -/
def parseDigits : Bytes → Nat → Nat
  | [], acc => acc
  | c :: cs, acc => if isDigitB c then parseDigits cs (acc * 10 + (c - 48)) else acc

/-- atol: skip whitespace, optional sign, then a decimal digit run.
Overflow of the C long is not modelled (the 10 MiB guard rejects any
value large enough to matter in serve.c). -/
def atol (b : Bytes) : Int :=
  let b1 := b.dropWhile isSpaceB
  match b1 with
  | c :: rest =>
    if c = 43 then (parseDigits rest 0 : Int)
    else if c = 45 then -(parseDigits rest 0 : Int)
    else (parseDigits b1 0 : Int)
  | [] => 0

/-- Accumulating hexadecimal parse: the hex digit run at the head. -/
def parseHexDigits : Bytes → Nat → Nat
  | [], acc => acc
  | c :: cs, acc => if isHexB c then parseHexDigits cs (acc * 16 + hexV c) else acc

/-- strtol with base 16 on a short buffer: skip whitespace, optional
sign, then a hex digit run.  With a two-byte subject the optional 0x
prefix can never be followed by a digit, so it needs no separate case
(parsing the 0 alone gives the same value 0). -/
def strtol16 (l : Bytes) : Int :=
  let l1 := l.dropWhile isSpaceB
  match l1 with
  | c :: rest =>
    if c = 43 then (parseHexDigits rest 0 : Int)
    else if c = 45 then -(parseHexDigits rest 0 : Int)
    else (parseHexDigits l1 0 : Int)
  | [] => 0

/-- Byte stored by path[pi++] = (char)strtol(hex, NULL, 16) for the
two-byte buffer \x7b a, b, 0 \x7d: the long value reduced to a byte. -/
def decodedByte (a b : Nat) : Nat := ((strtol16 [a, b]) % 256).toNat

/-- Percent-decoding loop of handle_request (serve.c lines 486-500)
with the remaining output capacity of the 1024-byte path buffer as
first argument (the loop guard is pi < sizeof(path) - 1).  Byte 37
is the percent sign. -/
def url_decode_cap : Nat → Bytes → Bytes
  | 0, _ => []
  | _ + 1, [] => []
  | cap + 1, c :: rest =>
    if c = 37 then
      match rest with
      | a :: b :: rest2 =>
        if a ≠ 0 ∧ b ≠ 0 then decodedByte a b :: url_decode_cap cap rest2
        else c :: url_decode_cap cap rest
      | _ => c :: url_decode_cap cap rest
    else c :: url_decode_cap cap rest

/-- Percent-decoding as performed on raw_path (capacity 1023; raw_path
itself holds at most 1023 bytes, so the capacity never truncates). -/
def url_decode (raw : Bytes) : Bytes := url_decode_cap 1023 raw

/-- path_is_safe (serve.c lines 130-138): reject any path whose
C-string view contains "..", or whose first byte after stripping a
single leading slash (47) and then a single leading backslash (92) is
followed by a colon (58). -/
def path_is_safe (path0 : Bytes) : Bool :=
  if hasSub path0 (bytes ("..")) then false
  else
    let p1 := match cstrV path0 with | 47 :: t => t | p => p
    let p2 := match p1 with | 92 :: t => t | p => p
    match p2 with
    | _ :: 58 :: _ => false
    | _ => true

/-- MIME table (serve.c lines 95-114), in source order. -/
def mime_table : List (Bytes × Bytes) :=
  [ (bytes (".html"), bytes ("text/html; charset=utf-8")),
    (bytes (".htm"),  bytes ("text/html; charset=utf-8")),
    (bytes (".css"),  bytes ("text/css; charset=utf-8")),
    (bytes (".js"),   bytes ("application/javascript; charset=utf-8")),
    (bytes (".json"), bytes ("application/json; charset=utf-8")),
    (bytes (".png"),  bytes ("image/png")),
    (bytes (".jpg"),  bytes ("image/jpeg")),
    (bytes (".jpeg"), bytes ("image/jpeg")),
    (bytes (".gif"),  bytes ("image/gif")),
    (bytes (".svg"),  bytes ("image/svg+xml")),
    (bytes (".ico"),  bytes ("image/x-icon")),
    (bytes (".txt"),  bytes ("text/plain; charset=utf-8")),
    (bytes (".md"),   bytes ("text/plain; charset=utf-8")),
    (bytes (".woff"), bytes ("font/woff")),
    (bytes (".woff2"),bytes ("font/woff2")),
    (bytes (".ttf"),  bytes ("font/ttf")),
    (bytes (".xml"),  bytes ("application/xml")) ]

/-- Suffix of the list starting at its last dot byte (46), inclusive:
the result of strrchr(path, dot). -/
def lastDotSuffix : Bytes → Option Bytes
  | [] => none
  | c :: t =>
    match lastDotSuffix t with
    | some s => some s
    | none => if c = 46 then some (c :: t) else none

/-- get_mime (serve.c lines 116-126): first table entry whose
extension equals the last dot-suffix; octet-stream otherwise. -/
def get_mime (p : Bytes) : Bytes :=
  match lastDotSuffix (cstrV p) with
  | some dot =>
    match mime_table.find? (fun e => dot == e.1) with
    | some e => e.2
    | none => bytes ("application/octet-stream")
  | none => bytes ("application/octet-stream")

/-- One sscanf %Ns conversion: skip whitespace, then read at most
width non-whitespace bytes.  Returns the token and the rest of the
input (scanning resumes right after the token). -/
def scanToken (width : Nat) (s : Bytes) : Bytes × Bytes :=
  let s1 := s.dropWhile isSpaceB
  let tok := (s1.takeWhile (fun c => !(isSpaceB c))).take width
  (tok, s1.drop tok.length)

/-- Query-string stripping: truncate raw_path at the first question
mark byte (63), as strchr plus the write of a NUL does. -/
def stripQuery (p : Bytes) : Bytes := p.takeWhile (fun c => c != 63)

/-- Routing outcome of handle_request.  The three error constructors
stand for the immediate send_error calls with the matching status
code; the api constructors stand for the calls of the corresponding
handler functions; staticFile carries the decoded path that reaches
the static-file code past the safety check. -/
inductive Route where
  | apiSave
  | apiBuild
  | apiDeploy
  | apiDeployConfigPost
  | apiDeployConfigGet
  | forbidden403
  | notFound404
  | methodNotAllowed405
  | staticFile (path : Bytes)
deriving DecidableEq

/-- Dispatch of handle_request (serve.c lines 453-506) on the parsed
method and the query-stripped raw path.  POST routes and the GET api
route compare the raw path; percent-decoding and path_is_safe run only
on the remaining GET branch. -/
def route (method rawPath : Bytes) : Route :=
  if method = bytes ("POST") then
    if rawPath = bytes ("/api/save") then .apiSave
    else if rawPath = bytes ("/api/build") then .apiBuild
    else if rawPath = bytes ("/api/deploy") then .apiDeploy
    else if rawPath = bytes ("/api/deploy-config") then .apiDeployConfigPost
    else .notFound404
  else if method = bytes ("GET") ∧ rawPath = bytes ("/api/deploy-config") then
    .apiDeployConfigGet
  else if method ≠ bytes ("GET") then .methodNotAllowed405
  else if path_is_safe (url_decode rawPath) then .staticFile (url_decode rawPath)
  else .forbidden403

/-- handle_request up to the routing decision: parse the request line
with sscanf("%15s %1023s"), strip the query string, dispatch. -/
def handle_request (buf : Bytes) : Route :=
  let s := cstrV buf
  let m := scanToken 15 s
  let r := scanToken 1023 m.2
  route m.1 (stripQuery r.1)

/-- Content-Length extraction of read_request_body (serve.c lines
202-205): a scan for the exact spelling Content-Length:, then a scan
for the exact spelling content-length:, then atol on the bytes after
the 15-byte header name. -/
def getContentLength (headers : Bytes) : Option Int :=
  match strstrIdx headers (bytes ("Content-Length:")) with
  | some i => some (atol (headers.drop (i + 15)))
  | none =>
    match strstrIdx headers (bytes ("content-length:")) with
    | some i => some (atol (headers.drop (i + 15)))
    | none => none

/-- The recv loop of read_request_body (serve.c lines 231-236): read
until the remaining count is zero; each segment delivers at most the
requested count; an exhausted or empty segment models recv returning
zero and breaks the loop. -/
def readLoop : Nat → List Bytes → Bytes
  | _, [] => []
  | remaining, seg :: rest =>
    if remaining = 0 then []
    else if seg.isEmpty then []
    else
      let k := min remaining seg.length
      seg.take k ++ readLoop (remaining - k) rest

/-- read_request_body (serve.c lines 200-240).  headers is the full
first-recv buffer, already_read its byte count, segs the further
socket input.  none models the NULL return (no body). -/
def read_request_body (headers : Bytes) (already_read : Nat) (segs : List Bytes) :
    Option Bytes :=
  match getContentLength headers with
  | none => none
  | some cl =>
    if cl ≤ 0 ∨ cl > 10485760 then none
    else
      match strstrIdx headers (bytes ("\r\n\r\n")) with
      | none => none
      | some j =>
        let contentLength := cl.toNat
        let headerLen := j + 4
        let bodyAlready := min (already_read - headerLen) contentLength
        let haveB := (headers.drop headerLen).take bodyAlready
        some (haveB ++ readLoop (contentLength - bodyAlready) segs)

/-- The two files the API handlers persist, as an explicit filesystem
state.  none models an absent file. -/
structure FS where
  crissyData : Option Bytes
  deployConf : Option Bytes
deriving DecidableEq

/-- handle_api_save (serve.c lines 243-268): status code and resulting
filesystem.  The fopen of crissy-data.json is modelled as succeeding
(its failure path returns 500 without writing). -/
def handle_api_save (headers : Bytes) (n : Nat) (segs : List Bytes) (fs : FS) :
    Nat × FS :=
  match read_request_body headers n segs with
  | none => (400, fs)
  | some body =>
    if body.length = 0 then (400, fs)
    else (200, { fs with crissyData := some body })

/-- JSON field extraction of handle_api_deploy_config_post (serve.c
lines 352-368): find the quoted key repo, the colon after it, the
first quote byte (34) after the colon, then the next quote; copy the
bytes between if fewer than 1024. -/
def parseRepoFromBody (body : Bytes) : Bytes :=
  let s := cstrV body
  match findSub s (bytes ("\"repo\"")) with
  | none => []
  | some i =>
    match findIdxP (s.drop (i + 6)) 58 with
    | none => []
    | some c =>
      match findIdxP (s.drop (i + 6 + c)) 34 with
      | none => []
      | some q1 =>
        let start := i + 6 + c + q1 + 1
        match findIdxP (s.drop start) 34 with
        | none => []
        | some q2 => if q2 < 1024 then (s.drop start).take q2 else []

/-- handle_api_deploy_config_post (serve.c lines 343-386): extract the
repo value and rewrite deploy.conf wholesale. -/
def handle_api_deploy_config_post (headers : Bytes) (n : Nat) (segs : List Bytes)
    (fs : FS) : Nat × FS :=
  match read_request_body headers n segs with
  | none => (400, fs)
  | some body =>
    if body.length = 0 then (400, fs)
    else
      let repo := parseRepoFromBody body
      let conf := bytes ("# deploy.conf - GitHub Pages deploy target\n")
                    ++ bytes ("repo=") ++ repo ++ bytes ("\n")
      (200, { fs with deployConf := some conf })

/-- One fgets(line, 1024, f) call: up to and including the first
newline byte (10), capped at 1023 bytes.  Returns the line and the
rest of the file. -/
def fgetsLine (b : Bytes) : Bytes × Bytes :=
  match findIdxP (b.take 1023) 10 with
  | some i => (b.take (i + 1), b.drop (i + 1))
  | none => (b.take 1023, b.drop 1023)

/-- Split a file into fgets lines; fuel bounds the recursion and a
fuel of the file length always suffices since each line is nonempty. -/
def fgetsSplitF : Nat → Bytes → List Bytes
  | 0, _ => []
  | _ + 1, [] => []
  | fuel + 1, b =>
    let lr := fgetsLine b
    lr.1 :: fgetsSplitF fuel lr.2

def fgetsSplit (b : Bytes) : List Bytes := fgetsSplitF b.length b

/-- Trailing trim of handle_api_deploy_config_get (serve.c lines
325-327): strip newline (10), carriage return (13) and space (32)
bytes from the end of the line. -/
def trimLine (l : Bytes) : Bytes :=
  (l.reverse.dropWhile (fun c => c == 10 || c == 13 || c == 32)).reverse

/-- Line loop of handle_api_deploy_config_get: skip comment and blank
lines, return the value of the first repo= line (strncpy caps it at
1023 bytes), or empty if none matches. -/
def findRepo : List Bytes → Bytes
  | [] => []
  | l :: ls =>
    let t := trimLine l
    match t with
    | [] => findRepo ls
    | 35 :: _ => findRepo ls
    | _ =>
      if beginsWith (bytes ("repo=")) t then (t.drop 5).take 1023
      else findRepo ls

/-- handle_api_deploy_config_get (serve.c lines 313-340): status code
and response body.  A missing deploy.conf yields the empty-repo JSON
with status 200. -/
def handle_api_deploy_config_get (fs : FS) : Nat × Bytes :=
  match fs.deployConf with
  | none => (200, bytes ("\x7b\"repo\":\"\"\x7d"))
  | some content =>
    let repo := findRepo (fgetsSplit content)
    (200, bytes ("\x7b\"repo\":\"") ++ repo ++ bytes ("\"\x7d"))

/-- Status code of the routes that answer immediately with send_error
in handle_request; none for the routes that call a handler. -/
def Route.statusCode : Route → Option Nat
  | .forbidden403 => some 403
  | .notFound404 => some 404
  | .methodNotAllowed405 => some 405
  | _ => none

/-- Lowercasing of ASCII bytes, used only to state that a header is
present up to letter case. -/
def toLowerBytes (b : Bytes) : Bytes :=
  b.map (fun c => if 65 ≤ c ∧ c ≤ 90 then c + 32 else c)

/-- Value of the longest hexadecimal prefix of the two bytes following
a percent sign, as the specification of claim C9 words it (a second
definition written from the claim, to compare against decodedByte). -/
def hexPrefixVal (a b : Nat) : Nat :=
  if isHexB a then (if isHexB b then 16 * hexV a + hexV b else hexV a) else 0

/-! ## Helper lemmas -/

/-- Dispatch of route on a POST method, written as a nested conditional
on the raw path alone. -/
lemma route_post_eq (raw : Bytes) :
    route (bytes ("POST")) raw =
      (if raw = bytes ("/api/save") then Route.apiSave
       else if raw = bytes ("/api/build") then Route.apiBuild
       else if raw = bytes ("/api/deploy") then Route.apiDeploy
       else if raw = bytes ("/api/deploy-config") then Route.apiDeployConfigPost
       else Route.notFound404) := by
  unfold route
  rw [if_pos rfl]

/-- Dispatch of route on a GET method whose raw path is not the api
route: the static branch with its safety check. -/
lemma route_get_static (raw : Bytes) (hdc : raw ≠ bytes ("/api/deploy-config")) :
    route (bytes ("GET")) raw =
      (if path_is_safe (url_decode raw) then Route.staticFile (url_decode raw)
       else Route.forbidden403) := by
  unfold route
  rw [if_neg (by decide), if_neg (fun hand => hdc hand.2), if_neg (not_not_intro rfl)]

/-- A path whose C-string view contains ".." is rejected by the
sanitizer. -/
lemma path_is_safe_eq_false (p : Bytes) (h : hasSub p (bytes ("..")) = true) :
    path_is_safe p = false := by
  unfold path_is_safe
  rw [if_pos h]

/-! ## Claim C1 -/

/-- Claim C1, counterexample: a POST request whose decoded path contains
".." is answered 404, and a DELETE request with such a path is answered
405, because handle_request dispatches POST and rejects non-GET methods
before the decoded path ever reaches path_is_safe; the claimed status
403 regardless of method fails. -/
theorem dotdot_post_gives_404 :
    (handle_request (bytes ("POST /.. HTTP/1.1\r\n\r\n"))).statusCode = some 404
    ∧ hasSub (url_decode (stripQuery (bytes ("/..")))) (bytes ("..")) = true
    ∧ (handle_request (bytes ("DELETE /.. HTTP/1.1\r\n\r\n"))).statusCode = some 405 := by
  decide

/-- Claim C1 (amended): a GET request whose decoded path contains ".."
(as a C string) is answered 403; for other methods the check is never
reached: a POST whose decoded path contains ".." is answered 404 (no
API route decodes to contain ".."), and any method other than GET and
POST is answered 405 whatever the path. -/
theorem dotdot_forbidden_only_on_get :
    (∀ raw, hasSub (url_decode raw) (bytes ("..")) = true →
        route (bytes ("GET")) raw = Route.forbidden403)
    ∧ (∀ raw, hasSub (url_decode raw) (bytes ("..")) = true →
        route (bytes ("POST")) raw = Route.notFound404)
    ∧ (∀ method raw, method ≠ bytes ("GET") → method ≠ bytes ("POST") →
        route method raw = Route.methodNotAllowed405) := by
  refine ⟨?_, ?_, ?_⟩
  · intro raw h
    by_cases hdc : raw = bytes ("/api/deploy-config")
    · subst hdc; exact absurd h (by decide)
    · rw [route_get_static raw hdc, path_is_safe_eq_false _ h]
      simp
  · intro raw h
    have h1 : raw ≠ bytes ("/api/save") := by rintro rfl; exact absurd h (by decide)
    have h2 : raw ≠ bytes ("/api/build") := by rintro rfl; exact absurd h (by decide)
    have h3 : raw ≠ bytes ("/api/deploy") := by rintro rfl; exact absurd h (by decide)
    have h4 : raw ≠ bytes ("/api/deploy-config") := by rintro rfl; exact absurd h (by decide)
    rw [route_post_eq, if_neg h1, if_neg h2, if_neg h3, if_neg h4]
  · intro m raw hg hp
    unfold route
    rw [if_neg hp, if_neg (fun hand => hg hand.1), if_pos hg]

theorem dotdot_forbidden_only_on_get_witness :
    route (bytes ("GET")) (bytes ("/../etc/passwd")) = Route.forbidden403 :=
  dotdot_forbidden_only_on_get.1 (bytes ("/../etc/passwd")) (by decide)

/-! ## Claim C2 -/

/-- Claim C2, counterexample: the POST router compares the raw,
undecoded path, so a POST whose target percent-encodes /api/save is
answered 404 instead of reaching the save handler, although the
decoded path is exactly /api/save. -/
theorem encoded_save_post_not_dispatched :
    handle_request (bytes ("POST /api/%73ave HTTP/1.1\r\nContent-Length: 2\r\n\r\nhi"))
      = Route.notFound404
    ∧ url_decode (stripQuery (bytes ("/api/%73ave"))) = bytes ("/api/save")
    ∧ Route.notFound404 ≠ Route.apiSave := by
  decide

/-- Claim C2 (amended): the router dispatches POST routes and the GET
api route by exact match on (method, raw path with the query string
stripped but not percent-decoded); percent-decoding is applied only
afterward, on the remaining GET static-file branch. -/
theorem router_matches_raw_path :
    (∀ raw, route (bytes ("POST")) raw = Route.apiSave ↔ raw = bytes ("/api/save"))
    ∧ (∀ raw, route (bytes ("POST")) raw = Route.apiDeployConfigPost ↔
        raw = bytes ("/api/deploy-config"))
    ∧ (∀ method raw, route method raw = Route.apiDeployConfigGet ↔
        (method = bytes ("GET") ∧ raw = bytes ("/api/deploy-config")))
    ∧ (∀ raw, raw ≠ bytes ("/api/deploy-config") →
        path_is_safe (url_decode raw) = true →
        route (bytes ("GET")) raw = Route.staticFile (url_decode raw)) := by
  refine ⟨?_, ?_, ?_, ?_⟩
  · intro raw
    by_cases h1 : raw = bytes ("/api/save")
    · subst h1; decide
    by_cases h2 : raw = bytes ("/api/build")
    · subst h2; decide
    by_cases h3 : raw = bytes ("/api/deploy")
    · subst h3; decide
    by_cases h4 : raw = bytes ("/api/deploy-config")
    · subst h4; decide
    rw [route_post_eq, if_neg h1, if_neg h2, if_neg h3, if_neg h4]
    simp [h1]
  · intro raw
    by_cases h1 : raw = bytes ("/api/save")
    · subst h1; decide
    by_cases h2 : raw = bytes ("/api/build")
    · subst h2; decide
    by_cases h3 : raw = bytes ("/api/deploy")
    · subst h3; decide
    by_cases h4 : raw = bytes ("/api/deploy-config")
    · subst h4; decide
    rw [route_post_eq, if_neg h1, if_neg h2, if_neg h3, if_neg h4]
    simp [h4]
  · intro m raw
    constructor
    · intro h
      by_cases hp : m = bytes ("POST")
      · rw [hp, route_post_eq] at h
        split_ifs at h
      · unfold route at h
        rw [if_neg hp] at h
        by_cases hand : m = bytes ("GET") ∧ raw = bytes ("/api/deploy-config")
        · exact hand
        · rw [if_neg hand] at h
          by_cases hg : m ≠ bytes ("GET")
          · rw [if_pos hg] at h; exact absurd h (by decide)
          · rw [if_neg hg] at h
            split_ifs at h
    · rintro ⟨hm, hr⟩
      subst hm; subst hr; decide
  · intro raw hdc hps
    rw [route_get_static raw hdc, if_pos hps]

theorem router_matches_raw_path_witness :
    route (bytes ("GET")) (bytes ("/index.html"))
      = Route.staticFile (url_decode (bytes ("/index.html"))) :=
  router_matches_raw_path.2.2.2 (bytes ("/index.html")) (by decide) (by decide)

/-! ## Claim C8 -/

/-- Claim C8: a POST whose raw path matches none of the four API routes
is answered 404, and a request whose method is neither GET nor POST is
answered 405 whatever its path. -/
theorem unmatched_post_and_method_errors :
    (∀ raw, raw ≠ bytes ("/api/save") → raw ≠ bytes ("/api/build") →
        raw ≠ bytes ("/api/deploy") → raw ≠ bytes ("/api/deploy-config") →
        route (bytes ("POST")) raw = Route.notFound404)
    ∧ (∀ method raw, method ≠ bytes ("GET") → method ≠ bytes ("POST") →
        route method raw = Route.methodNotAllowed405) := by
  constructor
  · intro raw h1 h2 h3 h4
    rw [route_post_eq, if_neg h1, if_neg h2, if_neg h3, if_neg h4]
  · intro m raw hg hp
    unfold route
    rw [if_neg hp, if_neg (fun hand => hg hand.1), if_pos hg]

theorem unmatched_post_and_method_errors_witness :
    route (bytes ("POST")) (bytes ("/api/missing")) = Route.notFound404
    ∧ route (bytes ("DELETE")) (bytes ("/index.html")) = Route.methodNotAllowed405 :=
  ⟨unmatched_post_and_method_errors.1 (bytes ("/api/missing"))
      (by decide) (by decide) (by decide) (by decide),
   unmatched_post_and_method_errors.2 (bytes ("DELETE")) (bytes ("/index.html"))
      (by decide) (by decide)⟩

/-! ## Body reader lemmas -/

/-- The recv loop returns at most the requested number of bytes. -/
lemma readLoop_length_le (segs : List Bytes) : ∀ r, (readLoop r segs).length ≤ r := by
  induction segs with
  | nil => intro r; simp [readLoop]
  | cons seg rest ih =>
    intro r
    simp only [readLoop]
    split_ifs with h0 he
    · simp
    · simp
    · simp only [List.length_append, List.length_take]
      have := ih (r - min r seg.length)
      omega

/-- Whatever the socket delivers, the body returned by
read_request_body is no longer than the declared Content-Length. -/
lemma read_request_body_length_le (h : Bytes) (n : Nat) (segs : List Bytes) (cl : Int)
    (hcl : getContentLength h = some cl) (body : Bytes)
    (hb : read_request_body h n segs = some body) : (body.length : Int) ≤ cl := by
  simp only [read_request_body, hcl] at hb
  by_cases hbad : cl ≤ 0 ∨ cl > 10485760
  · rw [if_pos hbad] at hb
    exact Option.noConfusion hb
  · rw [if_neg hbad] at hb
    cases hj : strstrIdx h (bytes ("\r\n\r\n")) with
    | none => rw [hj] at hb; exact Option.noConfusion hb
    | some j =>
      rw [hj] at hb
      rw [Option.some.injEq] at hb
      subst hb
      have ht : (List.take (min (n - (j + 4)) cl.toNat) (h.drop (j + 4))).length
          ≤ min (n - (j + 4)) cl.toNat := List.length_take_le _ _
      have hr := readLoop_length_le segs (cl.toNat - min (n - (j + 4)) cl.toNat)
      simp only [List.length_append]
      omega

/-! ## Claim C3 -/

/-- Claim C3: a POST /api/save request carrying a nonempty body B whose
header block declares Content-Length B.length (the header scan finds
that value and the header/body boundary sits exactly at the end of H)
is answered 200 and the saved content file holds exactly B; a request
whose body comes back absent or empty is answered 400 and the
filesystem is untouched. -/
theorem save_roundtrip (H B : Bytes) (fs : FS)
    (hne : B ≠ []) (hlen : B.length ≤ 10485760)
    (hcl : getContentLength (H ++ B) = some (B.length : Int))
    (j : Nat) (hj : strstrIdx (H ++ B) (bytes ("\r\n\r\n")) = some j)
    (hj4 : j + 4 = H.length) :
    handle_api_save (H ++ B) (H ++ B).length [] fs
      = (200, { fs with crissyData := some B })
    ∧ (∀ buf n segs fs2,
        (read_request_body buf n segs = none ∨ read_request_body buf n segs = some []) →
        handle_api_save buf n segs fs2 = (400, fs2)) := by
  constructor
  · have hpos : 0 < B.length := List.length_pos.mpr hne
    have hbad : ¬((B.length : Int) ≤ 0 ∨ (B.length : Int) > 10485760) := by
      rintro (hx | hx) <;> omega
    have hrrb : read_request_body (H ++ B) (H ++ B).length [] = some B := by
      simp only [read_request_body, hcl, hj]
      rw [if_neg hbad]
      simp [Int.toNat_natCast, List.length_append, hj4, Nat.add_sub_cancel_left,
        min_self, List.drop_left, List.take_length, Nat.sub_self, readLoop]
    simp only [handle_api_save, hrrb]
    rw [if_neg (fun h0 => hne (List.length_eq_zero.mp h0))]
  · intro buf n segs fs2 hy
    rcases hy with hy | hy <;> simp [handle_api_save, hy]

theorem save_roundtrip_witness :
    handle_api_save
        (bytes ("POST /api/save HTTP/1.1\r\nContent-Length: 5\r\n\r\n") ++ bytes ("hello"))
        ((bytes ("POST /api/save HTTP/1.1\r\nContent-Length: 5\r\n\r\n") ++ bytes ("hello")).length)
        [] ⟨none, none⟩
      = (200, ⟨some (bytes ("hello")), none⟩) :=
  (save_roundtrip (bytes ("POST /api/save HTTP/1.1\r\nContent-Length: 5\r\n\r\n"))
    (bytes ("hello")) ⟨none, none⟩ (by decide) (by decide) (by decide)
    42 (by decide) (by decide)).1

/-! ## Claim C4 -/

/-- Claim C4: a missing Content-Length header, or a declared value at
most 0 or above 10 MiB, makes the body reader return no body whatever
the socket holds (so no read of the declared byte count is attempted);
a handler that requires a body then answers 400; the concrete 20 MB
declaration is rejected for every socket state. -/
theorem body_absent_rules :
    (∀ h n segs, getContentLength h = none → read_request_body h n segs = none)
    ∧ (∀ h n segs cl, getContentLength h = some cl → cl ≤ 0 ∨ cl > 10485760 →
        read_request_body h n segs = none)
    ∧ (∀ h n segs fs, read_request_body h n segs = none →
        handle_api_save h n segs fs = (400, fs))
    ∧ (∀ n segs, read_request_body
        (bytes ("POST /api/save HTTP/1.1\r\nContent-Length: 20000000\r\n\r\n")) n segs
        = none) := by
  have part1 : ∀ h n segs, getContentLength h = none → read_request_body h n segs = none := by
    intro h n segs hcl
    simp only [read_request_body, hcl]
  have part2 : ∀ h n segs cl, getContentLength h = some cl → cl ≤ 0 ∨ cl > 10485760 →
      read_request_body h n segs = none := by
    intro h n segs cl hcl hbad
    simp only [read_request_body, hcl]
    rw [if_pos hbad]
  refine ⟨part1, part2, ?_, ?_⟩
  · intro h n segs fs hr
    simp [handle_api_save, hr]
  · intro n segs
    exact part2 _ n segs 20000000 (by decide) (Or.inr (by decide))

theorem body_absent_rules_witness :
    read_request_body
        (bytes ("POST /api/save HTTP/1.1\r\nContent-Length: 20000000\r\n\r\n")) 54
        [bytes ("abc")] = none
    ∧ handle_api_save (bytes ("POST /api/save HTTP/1.1\r\n\r\n")) 29 [] ⟨none, none⟩
        = (400, ⟨none, none⟩) :=
  ⟨body_absent_rules.2.2.2 54 [bytes ("abc")],
   body_absent_rules.2.2.1 _ 29 [] ⟨none, none⟩ (body_absent_rules.1 _ 29 [] (by decide))⟩

/-! ## Claim C7 -/

/-- Claim C7, counterexample: a header block spelling the header
CONTENT-LENGTH is not located by the body reader (both scans are
case-sensitive for their exact spelling), although a genuinely
case-insensitive scan would find it: the body comes back absent. -/
theorem uppercase_content_length_missed :
    read_request_body
        (bytes ("POST /api/save HTTP/1.1\r\nCONTENT-LENGTH: 5\r\n\r\nhello"))
        (bytes ("POST /api/save HTTP/1.1\r\nCONTENT-LENGTH: 5\r\n\r\nhello")).length []
      = none
    ∧ hasSub
        (toLowerBytes (bytes ("POST /api/save HTTP/1.1\r\nCONTENT-LENGTH: 5\r\n\r\nhello")))
        (bytes ("content-length:")) = true := by
  decide

/-- Claim C7 (amended): the body reader locates the Content-Length
header by two scans for the exact spellings Content-Length: and then
content-length:; it finds a header if and only if one of those two
spellings occurs, the first spelling taking priority, and any other
letter casing is treated as absent. -/
theorem content_length_exact_spellings :
    (∀ h, getContentLength h = none ↔
        (strstrIdx h (bytes ("Content-Length:")) = none
         ∧ strstrIdx h (bytes ("content-length:")) = none))
    ∧ (∀ h i, strstrIdx h (bytes ("Content-Length:")) = some i →
        getContentLength h = some (atol (h.drop (i + 15)))) := by
  constructor
  · intro h
    unfold getContentLength
    cases h1 : strstrIdx h (bytes ("Content-Length:")) <;>
      cases h2 : strstrIdx h (bytes ("content-length:")) <;> simp
  · intro h i hi
    simp only [getContentLength, hi]

theorem content_length_exact_spellings_witness :
    getContentLength (bytes ("Content-Length: 7\r\n\r\n")) = some 7 := by
  rw [content_length_exact_spellings.2 (bytes ("Content-Length: 7\r\n\r\n")) 0 (by decide)]
  decide

/-! ## Claim C10 -/

/-- Claim C10: under any declared Content-Length, the body handed back
by read_request_body never exceeds that length (buffered surplus is
clamped and the recv loop asks only for the remainder), so the file
saved by /api/save either is untouched or holds at most the declared
number of bytes. -/
theorem body_never_exceeds_declared :
    (∀ h n segs cl body, getContentLength h = some cl →
        read_request_body h n segs = some body → (body.length : Int) ≤ cl)
    ∧ (∀ h n segs cl fs, getContentLength h = some cl →
        (handle_api_save h n segs fs).2.crissyData = fs.crissyData
        ∨ ∃ body, (handle_api_save h n segs fs).2.crissyData = some body
            ∧ (body.length : Int) ≤ cl) := by
  refine ⟨?_, ?_⟩
  · intro h n segs cl body hcl hb
    exact read_request_body_length_le h n segs cl hcl body hb
  · intro h n segs cl fs hcl
    cases hr : read_request_body h n segs with
    | none => left; simp [handle_api_save, hr]
    | some body =>
      by_cases hz : body.length = 0
      · left; simp [handle_api_save, hr, hz]
      · right
        refine ⟨body, ?_, read_request_body_length_le h n segs cl hcl body hr⟩
        simp [handle_api_save, hr, hz]

theorem body_never_exceeds_declared_witness :
    (((bytes ("hel")).length : Int)) ≤ 3 :=
  body_never_exceeds_declared.1
    (bytes ("POST /api/save HTTP/1.1\r\nContent-Length: 3\r\n\r\nhelloworld"))
    ((bytes ("POST /api/save HTTP/1.1\r\nContent-Length: 3\r\n\r\nhelloworld")).length)
    [] 3 (bytes ("hel")) (by decide) (by decide)

/-! ## Claim C5 -/

/-- Claim C5: posting the deploy configuration body naming the example
repository and then reading the configuration back returns exactly the
same JSON object, whatever the prior filesystem state. -/
theorem deploy_config_roundtrip (fs : FS) :
    (handle_api_deploy_config_post
        (bytes ("POST /api/deploy-config HTTP/1.1\r\nContent-Length: 35\r\n\r\n\x7b\"repo\":\"https://example/repo.git\"\x7d"))
        ((bytes ("POST /api/deploy-config HTTP/1.1\r\nContent-Length: 35\r\n\r\n\x7b\"repo\":\"https://example/repo.git\"\x7d")).length)
        [] fs).1 = 200
    ∧ handle_api_deploy_config_get
        ((handle_api_deploy_config_post
            (bytes ("POST /api/deploy-config HTTP/1.1\r\nContent-Length: 35\r\n\r\n\x7b\"repo\":\"https://example/repo.git\"\x7d"))
            ((bytes ("POST /api/deploy-config HTTP/1.1\r\nContent-Length: 35\r\n\r\n\x7b\"repo\":\"https://example/repo.git\"\x7d")).length)
            [] fs).2)
        = (200, bytes ("\x7b\"repo\":\"https://example/repo.git\"\x7d")) :=
  ⟨rfl, rfl⟩

theorem deploy_config_roundtrip_witness :
    (handle_api_deploy_config_post
        (bytes ("POST /api/deploy-config HTTP/1.1\r\nContent-Length: 35\r\n\r\n\x7b\"repo\":\"https://example/repo.git\"\x7d"))
        ((bytes ("POST /api/deploy-config HTTP/1.1\r\nContent-Length: 35\r\n\r\n\x7b\"repo\":\"https://example/repo.git\"\x7d")).length)
        [] ⟨none, none⟩).1 = 200 :=
  (deploy_config_roundtrip ⟨none, none⟩).1

/-! ## Claim C6 -/

/-- Claim C6: a served path whose last dot-suffix equals a table
extension gets exactly that table entry as its content type, and a
path whose last dot-suffix matches no table entry, or that has no dot
at all, gets application/octet-stream. -/
theorem mime_resolution :
    (∀ p e m, (e, m) ∈ mime_table → lastDotSuffix (cstrV p) = some e → get_mime p = m)
    ∧ (∀ p, (∀ e m, (e, m) ∈ mime_table → lastDotSuffix (cstrV p) ≠ some e) →
        get_mime p = bytes ("application/octet-stream")) := by
  constructor
  · intro p e m hmem hdot
    simp only [get_mime, hdot]
    fin_cases hmem <;> rfl
  · intro p hnone
    cases hd : lastDotSuffix (cstrV p) with
    | none => simp [get_mime, hd]
    | some d =>
      have hfind : mime_table.find? (fun x => d == x.1) = none := by
        rw [List.find?_eq_none]
        rintro ⟨e, m⟩ hx hde
        rw [beq_iff_eq] at hde
        rw [hde] at hd
        exact hnone e m hx hd
      simp [get_mime, hd, hfind]

theorem mime_resolution_witness :
    get_mime (bytes ("/styles.css")) = bytes ("text/css; charset=utf-8") :=
  mime_resolution.1 (bytes ("/styles.css")) (bytes (".css"))
    (bytes ("text/css; charset=utf-8")) (by decide) (by decide)

/-! ## Claim C9 -/

/-- A hexadecimal digit byte is not whitespace. -/
lemma isSpaceB_false_of_isHexB (a : Nat) (h : isHexB a = true) : isSpaceB a = false := by
  simp only [isHexB, decide_eq_true_eq] at h
  simp only [isSpaceB, decide_eq_false_iff_not]
  omega

/-- A hexadecimal digit byte has value below 16. -/
lemma hexV_lt_16 (a : Nat) (h : isHexB a = true) : hexV a < 16 := by
  simp only [isHexB, decide_eq_true_eq] at h
  unfold hexV
  split_ifs <;> omega

/-- Claim C9, counterexample: the substituted byte is not in general
the value of the longest hexadecimal prefix of the two bytes after the
percent sign, because strtol accepts a leading sign: "%-f" decodes to
byte 241 and "%+1" to byte 1, while the longest hexadecimal prefix of
"-f" and of "+1" is empty, so the claim predicts byte 0 (45, 43, 102
and 49 are the code points of minus, plus, f and 1). -/
theorem sign_prefixed_percent_triplet :
    url_decode (bytes ("%-f")) = [241]
    ∧ hexPrefixVal 45 102 = 0
    ∧ url_decode (bytes ("%+1")) = [1]
    ∧ hexPrefixVal 43 49 = 0 := by
  decide

/-- Claim C9 (amended): a percent sign followed by two bytes is always
consumed as a three-byte triplet, and the substituted byte is what
strtol parses in base 16 from the two bytes: for a leading hex digit
this is the value of the longest hexadecimal prefix; a leading plus or
minus sign applies to the hex digits after it, a negative value being
stored modulo 256; any other non-whitespace leading byte gives 0; a
percent sign with fewer than two following bytes is copied through
literally. -/
theorem percent_decode_strtol_semantics :
    (∀ a b, isHexB a = true → decodedByte a b = hexPrefixVal a b)
    ∧ (∀ b, isHexB b = true → decodedByte 43 b = hexV b)
    ∧ (∀ b, isHexB b = true → decodedByte 45 b = (256 - hexV b) % 256)
    ∧ (∀ a b, isHexB a = false → a ≠ 43 → a ≠ 45 → isSpaceB a = false →
        decodedByte a b = 0)
    ∧ (∀ a b rest, a ≠ 0 → b ≠ 0 →
        url_decode (37 :: a :: b :: rest) = decodedByte a b :: url_decode_cap 1022 rest)
    ∧ (∀ a, url_decode [37, a] = [37, a]) := by
  refine ⟨?_, ?_, ?_, ?_, ?_, ?_⟩
  · intro a b ha
    have hsp := isSpaceB_false_of_isHexB a ha
    have hva := hexV_lt_16 a ha
    have h43 : a ≠ 43 := by
      simp only [isHexB, decide_eq_true_eq] at ha; omega
    have h45 : a ≠ 45 := by
      simp only [isHexB, decide_eq_true_eq] at ha; omega
    cases hb : isHexB b
    · simp [decodedByte, strtol16, parseHexDigits, List.dropWhile_cons, hsp, ha, hb,
        h43, h45, hexPrefixVal]
      omega
    · have hvb := hexV_lt_16 b hb
      simp [decodedByte, strtol16, parseHexDigits, List.dropWhile_cons, hsp, ha, hb,
        h43, h45, hexPrefixVal]
      omega
  · intro b hb
    have hvb := hexV_lt_16 b hb
    have hsp : isSpaceB 43 = false := by decide
    simp [decodedByte, strtol16, parseHexDigits, List.dropWhile_cons, hsp, hb]
    omega
  · intro b hb
    have hvb := hexV_lt_16 b hb
    have hsp : isSpaceB 45 = false := by decide
    simp [decodedByte, strtol16, parseHexDigits, List.dropWhile_cons, hsp, hb]
    omega
  · intro a b hna h43 h45 hsp
    simp [decodedByte, strtol16, parseHexDigits, List.dropWhile_cons, hsp, hna, h43, h45]
  · intro a b rest hna hnb
    have hstep : url_decode_cap (1022 + 1) (37 :: a :: b :: rest)
        = if a ≠ 0 ∧ b ≠ 0 then decodedByte a b :: url_decode_cap 1022 rest
          else 37 :: url_decode_cap 1022 (a :: b :: rest) := rfl
    show url_decode_cap 1023 (37 :: a :: b :: rest) = _
    rw [show (1023 : Nat) = 1022 + 1 from rfl, hstep, if_pos ⟨hna, hnb⟩]
  · intro a
    have hstep : url_decode_cap (1022 + 1) [37, a] = 37 :: url_decode_cap 1022 [a] := rfl
    have hone : url_decode_cap 1022 [a] = [a] := by
      rw [show (1022 : Nat) = 1021 + 1 from rfl]
      rw [show url_decode_cap (1021 + 1) [a]
            = if a = 37 then a :: url_decode_cap 1021 [] else a :: url_decode_cap 1021 []
          from rfl, ite_self]
      rfl
    show url_decode_cap 1023 [37, a] = [37, a]
    rw [show (1023 : Nat) = 1022 + 1 from rfl, hstep, hone]

theorem percent_decode_strtol_semantics_witness :
    decodedByte 52 122 = hexPrefixVal 52 122 :=
  percent_decode_strtol_semantics.1 52 122 (by decide)
